import Mathlib

/-!
Formal model of the terminal interaction engine of the `nspecify` CLI,
shallowly embedded in Lean 4.

The embedding follows the JavaScript sources:
* `src/ui/tracker.js` — `StepTracker`, `LiveUpdater`
* `src/ui/selector.js` — `Selector`
* `src/ui/keyboard.js` — `KeyboardHandler`

JavaScript objects become structures, mutation becomes state passing,
callbacks become values that record whether the callback throws when
invoked, and terminal writes become explicit effect lists.
-/

/-- A subscriber / refresh callback.  `cbId` identifies the callback
(registration order); `throws` records whether invoking it raises. -/
structure Callback where
  cbId : Nat
  throws : Bool
deriving DecidableEq

/-- Invoking a callback either returns or raises. -/
def invokeCallback (c : Callback) : Except Unit Unit :=
  if c.throws then Except.error () else Except.ok ()

/-- One step of a `StepTracker` (tracker.js): `{ key, label, status, detail }`.
`status` is one of the strings `pending`, `running`, `done`, `error`,
`skipped`, exactly as in the source. -/
structure Step where
  key : String
  label : String
  status : String
  detail : String
deriving DecidableEq

/-- The `StepTracker` state (tracker.js constructor): title, ordered step
list, optional refresh callback, and the line count of the last render. -/
structure StepTracker where
  title : String
  steps : List Step
  refreshCallback : Option Callback
  lastRenderLines : Nat
deriving DecidableEq

/-- Model of `StepTracker.maybeRefresh` (tracker.js lines 111-119): invokes the
attached refresh callback, if any, inside `try { ... } catch (e) { }`.
The boolean records whether an exception escapes the call: the catch
swallows the callback error, so it is `false` on every branch. -/
def StepTracker.maybeRefresh (t : StepTracker) : StepTracker × Bool :=
  match t.refreshCallback with
  | none => (t, false)
  | some c =>
    match invokeCallback c with
    | Except.ok _ => (t, false)
    | Except.error _ => (t, false)

/-- Model of `StepTracker.add` (tracker.js lines 36-47): push a new pending step
unless a step with the same key already exists; a successful push triggers
`maybeRefresh` (which leaves the tracker fields unchanged). -/
def StepTracker.add (t : StepTracker) (key label : String) : StepTracker :=
  if t.steps.any (fun s => s.key = key) then t
  else
    (StepTracker.maybeRefresh
      { t with steps := t.steps ++ [⟨key, label, "pending", ""⟩] }).1

/-- Mutate the first step whose key matches, as `steps.find` followed by
in-place mutation does in tracker.js lines 98-103: overwrite `status`
unconditionally and `detail` only when the new detail is truthy (non-empty). -/
def updateFirstStep : List Step → String → String → String → List Step
  | [], _, _, _ => []
  | s :: rest, key, status, detail =>
    if s.key = key then
      { s with status := status
             , detail := if detail = "" then s.detail else detail } :: rest
    else s :: updateFirstStep rest key status detail

/-- Model of `StepTracker.update` (tracker.js lines 91-106): upsert — when the key is
absent, push `{ key, label: key, status, detail }`; when present, mutate the
found step; then `maybeRefresh`. -/
def StepTracker.update (t : StepTracker) (key status detail : String) : StepTracker :=
  let t1 :=
    if t.steps.any (fun s => s.key = key) then
      { t with steps := updateFirstStep t.steps key status detail }
    else
      { t with steps := t.steps ++ [⟨key, key, status, detail⟩] }
  (StepTracker.maybeRefresh t1).1

/-- Model of `StepTracker.start` (tracker.js line 54). -/
def StepTracker.start (t : StepTracker) (key detail : String) : StepTracker :=
  t.update key "running" detail

/-- Model of `StepTracker.complete` (tracker.js line 63). -/
def StepTracker.complete (t : StepTracker) (key detail : String) : StepTracker :=
  t.update key "done" detail

/-- Model of `StepTracker.error` (tracker.js line 72). -/
def StepTracker.error (t : StepTracker) (key detail : String) : StepTracker :=
  t.update key "error" detail

/-- Model of `StepTracker.skip` (tracker.js line 81). -/
def StepTracker.skip (t : StepTracker) (key detail : String) : StepTracker :=
  t.update key "skipped" detail

/-- The readline key descriptor (`key` argument of a keypress listener):
symbolic name and ctrl modifier, each possibly absent. -/
structure KeyDesc where
  name : Option String
  ctrl : Bool
deriving DecidableEq

/-- One raw keypress event `(str, key)` as delivered to `handleKeypress`
(keyboard.js): the typed character and the descriptor, each possibly
absent (`undefined`). -/
structure RawEvent where
  str : Option String
  key : Option KeyDesc
deriving DecidableEq

/-- JavaScript `a || b` on a possibly-absent string: an absent or empty
string is falsy and selects `b`. -/
def jsOr (a : Option String) (b : String) : String :=
  match a with
  | some s => if s = "" then b else s
  | none => b

/-- Model of `KeyboardHandler.normalizeKey` (keyboard.js lines 343-371): map a raw
`(str, key)` pair to a normalized key name string.  Total by construction,
like the source, which only tests and returns. -/
def KeyboardHandler.normalizeKey (str : Option String) (key : Option KeyDesc) : String :=
  match key with
  | none => jsOr str "unknown"
  | some k =>
    if k.name = some "up" then "up"
    else if k.name = some "down" then "down"
    else if k.name = some "left" then "left"
    else if k.name = some "right" then "right"
    else if k.name = some "return" then "enter"
    else if k.name = some "escape" then "escape"
    else if k.name = some "space" then "space"
    else if k.name = some "tab" then "tab"
    else if k.name = some "backspace" then "backspace"
    else jsOr str (jsOr k.name "unknown")

/-- Side effects of `enableRawMode` / `disableRawMode` on `process.stdin`,
in the order the source performs them. -/
inductive StdinEffect
  | emitKeypressEvents
  | setRaw (b : Bool)
  | resume
  | pause
  | addKeypressListener
  | removeAllKeypressListeners
deriving DecidableEq

/-- The `KeyboardHandler` state (keyboard.js constructor): the raw-mode
flag, the subscriber registry (`Map` from key name to callback list,
modelled as an insertion-ordered association list), the debounce buffer
and whether a debounce timer is pending. -/
structure KeyboardHandler where
  isRawMode : Bool
  listeners : List (String × List Callback)
  keyBuffer : List RawEvent
  debounceTimerSet : Bool
deriving DecidableEq

/-- Model of `KeyboardHandler.enableRawMode` (keyboard.js lines 263-277): early
return when the flag is already set; otherwise emit keypress events, set
the TTY raw mode when interactive, resume stdin, attach the keypress
listener and set the flag. -/
def KeyboardHandler.enableRawMode (h : KeyboardHandler) (isTTY : Bool) :
    KeyboardHandler × List StdinEffect :=
  if h.isRawMode then (h, [])
  else
    ({ h with isRawMode := true },
     [StdinEffect.emitKeypressEvents]
       ++ (if isTTY then [StdinEffect.setRaw true] else [])
       ++ [StdinEffect.resume, StdinEffect.addKeypressListener])

/-- Model of `KeyboardHandler.disableRawMode` (keyboard.js lines 282-292): early
return when the flag is already clear; otherwise clear the TTY raw mode
when interactive, pause stdin, drop all keypress listeners and clear the
flag. -/
def KeyboardHandler.disableRawMode (h : KeyboardHandler) (isTTY : Bool) :
    KeyboardHandler × List StdinEffect :=
  if h.isRawMode then
    ({ h with isRawMode := false },
     (if isTTY then [StdinEffect.setRaw false] else [])
       ++ [StdinEffect.pause, StdinEffect.removeAllKeypressListeners])
  else (h, [])

/-- The Ctrl+C test of `handleKeypress`: `key && key.ctrl && key.name === 'c'`. -/
def isCtrlC (e : RawEvent) : Bool :=
  match e.key with
  | some k => k.ctrl && k.name = some "c"
  | none => false

/-- Result of one `handleKeypress` call: on Ctrl+C the handler disables
raw mode and the process exits; otherwise the event is buffered and the
debounce timer is (re)armed. -/
inductive KeypressResult
  | exited (h : KeyboardHandler) (effects : List StdinEffect)
  | continued (h : KeyboardHandler)
deriving DecidableEq

/-- Model of `KeyboardHandler.handleKeypress` (keyboard.js lines 299-318): Ctrl+C
disables raw mode and exits the process; any other event is appended to
the key buffer, the pending debounce timer is cleared and a new one is
set.  No event is emitted here. -/
def KeyboardHandler.handleKeypress (h : KeyboardHandler) (isTTY : Bool) (e : RawEvent) :
    KeypressResult :=
  if isCtrlC e then
    let (h1, effs) := h.disableRawMode isTTY
    KeypressResult.exited h1 effs
  else
    KeypressResult.continued
      { h with keyBuffer := h.keyBuffer ++ [e], debounceTimerSet := true }

/-- Model of `KeyboardHandler.processKeyBuffer` (keyboard.js lines 323-335), run
when the debounce timer fires: empty buffer does nothing; otherwise the
last buffered raw event is taken, the buffer is emptied, and exactly one
normalized event is emitted.  The returned list holds the `emit` calls
`(keyName, data)` made by this step. -/
def KeyboardHandler.processKeyBuffer (h : KeyboardHandler) :
    KeyboardHandler × List (String × RawEvent) :=
  match h.keyBuffer.getLast? with
  | none => (h, [])
  | some e =>
    ({ h with keyBuffer := [] },
     [(KeyboardHandler.normalizeKey e.str e.key, e)])

/-- Run a list of callbacks in order, as `Array.prototype.forEach` does in
`emit`: each callback is invoked; a throwing callback ends the iteration
and the exception propagates (there is no try/catch in `emit`).  Returns
the ids of the callbacks that were invoked and whether the whole run
completed without an exception. -/
def runCallbacks : List Callback → List Nat × Bool
  | [] => ([], true)
  | c :: rest =>
    if c.throws then ([c.cbId], false)
    else
      let (ids, ok) := runCallbacks rest
      (c.cbId :: ids, ok)

/-- Model of `this.listeners.get(name)` on the insertion-ordered registry. -/
def lookupListeners (ls : List (String × List Callback)) (name : String) :
    Option (List Callback) :=
  (ls.find? (fun p => p.1 = name)).map (fun p => p.2)

/-- Model of `KeyboardHandler.emit` (keyboard.js lines 405-419): invoke the
name-specific subscribers, then the `"any"` subscribers, in registration
order.  Returns the invoked callback ids and whether emit returned
normally; an exception thrown by a subscriber propagates out of `emit`,
skipping everything after it. -/
def KeyboardHandler.emit (ls : List (String × List Callback)) (keyName : String) :
    List Nat × Bool :=
  let r1 :=
    match lookupListeners ls keyName with
    | some cbs => runCallbacks cbs
    | none => ([], true)
  if r1.2 then
    match lookupListeners ls "any" with
    | some cbs =>
      let r2 := runCallbacks cbs
      (r1.1 ++ r2.1, r2.2)
    | none => (r1.1, true)
  else (r1.1, false)

/-- A selector item `{ key, label }` (selector.js). -/
structure Item where
  key : String
  label : String
deriving DecidableEq

/-- The `Selector` state (selector.js constructor plus the
`previousLineCount` field set during `render`/`run`).  `selectedIndex` is
a JavaScript number holding integer values, modelled as `Int`. -/
structure Selector where
  items : List Item
  prompt : String
  selectedIndex : Int
  isActive : Bool
  result : Option Item
  previousLineCount : Nat
deriving DecidableEq

/-- Observable actions of a `Selector` on its collaborators, in program
order: raw-mode toggles, renders, (un)subscription of the `'any'`
listener, erasing previously rendered lines, and the cancellation
message. -/
inductive SelEffect
  | enableRaw
  | render (lineTotal : Nat)
  | subscribeAny
  | unsubscribeAny
  | disableRaw
  | eraseLines (n : Nat)
  | printCancelled
deriving DecidableEq

/-- Number of lines `Selector.render` pushes (selector.js lines 35-56):
one leading empty line, two header lines, one line per item, and three
footer lines. -/
def Selector.renderLineTotal (s : Selector) : Nat :=
  6 + s.items.length

/-- Model of `Selector.render` (selector.js lines 34-69): when `clear` is set and a
previous render exists, erase that many lines; write the block; store
`lines.length - 1` as the next clear count. -/
def Selector.render (s : Selector) (clear : Bool) : Selector × List SelEffect :=
  (({ s with previousLineCount := s.renderLineTotal - 1 }),
   (if clear ∧ s.previousLineCount ≠ 0 then [SelEffect.eraseLines s.previousLineCount]
    else [])
     ++ [SelEffect.render s.renderLineTotal])

/-- Model of `Selector.handleKey` (selector.js lines 75-97): `up`/`down` move the
selection with wrap-around and re-render; `enter` resolves to the item at
the current index and leaves the run loop; `escape` cancels; anything
else is ignored. -/
def Selector.handleKey (s : Selector) (key : String) : Selector × List SelEffect :=
  if key = "up" then
    Selector.render
      { s with selectedIndex :=
          (s.selectedIndex - 1 + (s.items.length : Int)) % (s.items.length : Int) }
      true
  else if key = "down" then
    Selector.render
      { s with selectedIndex :=
          (s.selectedIndex + 1) % (s.items.length : Int) }
      true
  else if key = "enter" then
    ({ s with result := s.items.get? s.selectedIndex.toNat, isActive := false }, [])
  else if key = "escape" then
    ({ s with result := none, isActive := false }, [])
  else (s, [])

/-- The state reached after a sequence of keys handled by
`Selector.handleKey` (effects discarded). -/
def Selector.applyKeys (s : Selector) (ks : List String) : Selector :=
  ks.foldl (fun s k => (Selector.handleKey s k).1) s

/-- The poll loop of `Selector.run` (selector.js lines 118-120): keys
delivered by the keyboard drive `handleKey` until `isActive` turns false;
keys arriving after that are not handled (the loop has exited). -/
def Selector.runLoop (s : Selector) : List String → Selector × List SelEffect
  | [] => (s, [])
  | k :: ks =>
    if s.isActive then
      let (s1, effs1) := Selector.handleKey s k
      let (s2, effs2) := Selector.runLoop s1 ks
      (s2, effs1 ++ effs2)
    else (s, [])

/-- How a call of `Selector.run` ends. -/
inductive RunOutcome
  | completed (result : Option Item)
  | errored
  | stillActive
deriving DecidableEq

/-- Model of `Selector.run` (selector.js lines 103-140) as a trace of effects plus
an outcome.  In order: set `isActive`, reset `previousLineCount`, enable
raw mode, initial render, subscribe the `'any'` listener, poll until a
key deactivates the selector, then unsubscribe, disable raw mode, erase
the rendered block and print the cancellation message when there is no
result.  `renderThrows` models the initial `render` raising (a
`process.stdout.write` failure); the source has no try/finally, so in
that case the function aborts with only the effects performed so far.
`RunOutcome.stillActive` marks a key sequence that never deactivates the
selector: the real loop would keep polling and the code after it would
not run. -/
def Selector.run (s0 : Selector) (keys : List String) (renderThrows : Bool) :
    List SelEffect × RunOutcome :=
  let s1 := { s0 with isActive := true, previousLineCount := 0 }
  if renderThrows then ([SelEffect.enableRaw], RunOutcome.errored)
  else
    let (s2, rEffs) := Selector.render s1 false
    let (s3, loopEffs) := Selector.runLoop s2 keys
    let effs := [SelEffect.enableRaw] ++ rEffs ++ [SelEffect.subscribeAny] ++ loopEffs
    if s3.isActive then (effs, RunOutcome.stillActive)
    else
      (effs
         ++ [SelEffect.unsubscribeAny, SelEffect.disableRaw]
         ++ (if s3.previousLineCount ≠ 0 then [SelEffect.eraseLines s3.previousLineCount]
             else [])
         ++ (if s3.result = none then [SelEffect.printCancelled] else []),
       RunOutcome.completed s3.result)

/-- The `LiveUpdater` state (tracker.js constructor): activity flag, the
queue of pending render thunks (each modelled by the string it returns
when called at flush time), the tracked line count of the last flush and
whether the periodic interval is armed. -/
structure LiveUpdater where
  isActive : Bool
  updateQueue : List String
  currentLines : Nat
  intervalSet : Bool
deriving DecidableEq

/-- Raw terminal writes of the `LiveUpdater`. -/
inductive WriteOp
  | saveCursor
  | moveUpAndClear
  | restoreCursor
  | write (s : String)
deriving DecidableEq

/-- Model of `LiveUpdater.clearLines` (tracker.js lines 346-359): nothing for a
non-positive count, else save cursor, move-up-and-clear per line, restore
cursor. -/
def LiveUpdater.clearLinesOps (count : Nat) : List WriteOp :=
  if count = 0 then []
  else [WriteOp.saveCursor]
         ++ List.replicate count WriteOp.moveUpAndClear
         ++ [WriteOp.restoreCursor]

/-- Model of `content.split('\n').length`. -/
def lineCount (content : String) : Nat :=
  (content.splitOn "\n").length

/-- Model of `LiveUpdater.queue` (tracker.js lines 317-319). -/
def LiveUpdater.queue (u : LiveUpdater) (renderResult : String) : LiveUpdater :=
  { u with updateQueue := u.updateQueue ++ [renderResult] }

/-- Model of `LiveUpdater.processQueue` (tracker.js lines 324-340): an empty queue
returns immediately; otherwise the last queued render function is taken,
the queue emptied, the previous content cleared, the new content written
and its line count tracked. -/
def LiveUpdater.processQueue (u : LiveUpdater) : LiveUpdater × List WriteOp :=
  match u.updateQueue.getLast? with
  | none => (u, [])
  | some content =>
    ({ u with updateQueue := [], currentLines := lineCount content },
     LiveUpdater.clearLinesOps u.currentLines ++ [WriteOp.write content])

/-! Theorems. -/

lemma maybeRefresh_fst (t : StepTracker) : (StepTracker.maybeRefresh t).1 = t := by
  unfold StepTracker.maybeRefresh
  cases t.refreshCallback with
  | none => rfl
  | some c => cases h : invokeCallback c <;> simp [h]

lemma updateFirstStep_split (pre : List Step) (s : Step) (post : List Step)
    (key status detail : String)
    (hpre : ∀ x ∈ pre, x.key ≠ key) (hs : s.key = key) :
    updateFirstStep (pre ++ s :: post) key status detail
      = pre ++ { s with status := status
                      , detail := if detail = "" then s.detail else detail } :: post := by
  induction pre with
  | nil => simp [updateFirstStep, hs]
  | cons a rest ih =>
    have ha : ¬ (a.key = key) := hpre a (List.mem_cons_self a rest)
    have ih2 := ih (fun x hx => hpre x (List.mem_cons_of_mem a hx))
    simp only [List.cons_append, updateFirstStep, if_neg ha, List.append_eq]
    rw [ih2]

lemma add_absent (t : StepTracker) (k l : String)
    (hany : t.steps.any (fun s => s.key = k) = false) :
    t.add k l = { t with steps := t.steps ++ [⟨k, l, "pending", ""⟩] } := by
  unfold StepTracker.add
  simp only [hany, Bool.false_eq_true, if_false, maybeRefresh_fst]

lemma add_present (t : StepTracker) (k l : String)
    (hany : t.steps.any (fun s => s.key = k) = true) :
    t.add k l = t := by
  unfold StepTracker.add
  simp only [hany, if_true]

lemma update_absent (t : StepTracker) (key status detail : String)
    (habs : ∀ s ∈ t.steps, s.key ≠ key) :
    (t.update key status detail).steps = t.steps ++ [⟨key, key, status, detail⟩] := by
  have hany : t.steps.any (fun s => s.key = key) = false := by
    rw [List.any_eq_false]
    intro s hs
    simpa using habs s hs
  simp [StepTracker.update, hany, maybeRefresh_fst]

lemma update_present (t : StepTracker) (key status detail : String)
    (pre : List Step) (s : Step) (post : List Step) (hsplit : t.steps = pre ++ s :: post)
    (hpre : ∀ x ∈ pre, x.key ≠ key) (hkey : s.key = key) :
    (t.update key status detail).steps
      = pre ++ { s with status := status
                      , detail := if detail = "" then s.detail else detail } :: post := by
  have hany : t.steps.any (fun x => x.key = key) = true := by
    rw [List.any_eq_true]
    refine ⟨s, ?_, by simp [hkey]⟩
    rw [hsplit]
    exact List.mem_append_right pre (List.mem_cons_self s post)
  simp only [StepTracker.update, hany, if_true, maybeRefresh_fst]
  rw [hsplit, updateFirstStep_split pre s post key status detail hpre hkey]

/-- C6: `update(key, status, detail)` has upsert semantics.  When no step
has the given key, a new step `{key, label: key, status, detail}` is
appended.  When a step with the key exists, its `status` is overwritten
unconditionally and its `detail` only when the new detail is non-empty;
all other steps are untouched. -/
theorem update_upsert (t : StepTracker) (key status detail : String) :
    ((∀ s ∈ t.steps, s.key ≠ key) →
        (t.update key status detail).steps = t.steps ++ [⟨key, key, status, detail⟩]) ∧
    (∀ pre s post, t.steps = pre ++ s :: post →
        (∀ x ∈ pre, x.key ≠ key) → s.key = key →
        (t.update key status detail).steps
          = pre ++ { s with status := status
                          , detail := if detail = "" then s.detail else detail } :: post) := by
  constructor
  · exact update_absent t key status detail
  · intro pre s post hsplit hpre hkey
    exact update_present t key status detail pre s post hsplit hpre hkey

/-- Witness for C6: the scenario from the claim.  Starting `download` with
detail `10%` then updating it to `running` with detail `50%` leaves detail
`50%`, and a further update with empty detail keeps `50%`. -/
theorem update_upsert_witness :
    ((((⟨"T", [], none, 0⟩ : StepTracker).start "download" "10%").update
        "download" "running" "50%").steps
      = [⟨"download", "download", "running", "50%"⟩]
    ∧ (((((⟨"T", [], none, 0⟩ : StepTracker).start "download" "10%").update
        "download" "running" "50%").update "download" "running" "").steps
      = [⟨"download", "download", "running", "50%"⟩])) := by
  constructor
  · have h := (update_upsert ((⟨"T", [], none, 0⟩ : StepTracker).start "download" "10%")
      "download" "running" "50%").2 [] ⟨"download", "download", "running", "10%"⟩ []
      (by decide) (by simp) rfl
    rw [h]
    decide
  · have h := (update_upsert (((⟨"T", [], none, 0⟩ : StepTracker).start "download" "10%").update
      "download" "running" "50%")
      "download" "running" "").2 [] ⟨"download", "download", "running", "50%"⟩ []
      (by decide) (by simp) rfl
    rw [h]
    decide

/-- C8 counterexample: on a tracker that already holds a step keyed `"k"`
with label `"old"`, calling `add("k","a")` then `add("k","b")` leaves the
single `"k"` step labelled `"old"`, not `"a"` — the claim's conclusion
fails for this `StepTracker`. -/
theorem add_first_wins_counterexample :
    ((((⟨"T", [⟨"k", "old", "pending", ""⟩], none, 0⟩ : StepTracker).add "k" "a").add
        "k" "b").steps = [⟨"k", "old", "pending", ""⟩])
    ∧ ¬ ("old" = "a") := by
  decide

/-- C8 (amended): when the tracker has no step keyed `k`, `add(k,l1)` then
`add(k,l2)` yields exactly one step with key `k`, labelled `l1`; and for
every tracker, `add` with an already-present key leaves the tracker
unchanged (first registration wins). -/
theorem add_first_wins (t : StepTracker) (k l1 l2 : String) :
    ((∀ s ∈ t.steps, s.key ≠ k) →
        ((t.add k l1).add k l2).steps.filter (fun s => s.key = k)
          = [⟨k, l1, "pending", ""⟩]) ∧
    (∀ l, t.steps.any (fun s => s.key = k) = true → t.add k l = t) := by
  constructor
  · intro habs
    have hany : t.steps.any (fun s => s.key = k) = false := by
      rw [List.any_eq_false]
      intro s hs
      simpa using habs s hs
    have h1 : (t.add k l1) = { t with steps := t.steps ++ [⟨k, l1, "pending", ""⟩] } :=
      add_absent t k l1 hany
    have hany2 : ((t.add k l1).steps.any (fun s => s.key = k)) = true := by
      rw [h1, List.any_eq_true]
      exact ⟨⟨k, l1, "pending", ""⟩, List.mem_append_right _ (List.mem_cons_self _ _), by simp⟩
    rw [add_present (t.add k l1) k l2 hany2, h1]
    rw [List.filter_append]
    have hnil : t.steps.filter (fun s => s.key = k) = [] := by
      rw [List.filter_eq_nil_iff]
      intro s hs
      simpa using habs s hs
    rw [hnil]
    simp
  · intro l hany
    exact add_present t k l hany

/-- Witness for C8 (amended): on a fresh tracker, `add("k","a")` then
`add("k","b")` leaves exactly one `"k"` step, labelled `"a"`; and `add`
on the present key is the identity. -/
theorem add_first_wins_witness :
    ((((⟨"T", [], none, 0⟩ : StepTracker).add "k" "a").add "k" "b").steps.filter
        (fun s => s.key = "k") = [⟨"k", "a", "pending", ""⟩]
    ∧ ((⟨"T", [⟨"k", "a", "pending", ""⟩], none, 0⟩ : StepTracker).add "k" "c"
        = ⟨"T", [⟨"k", "a", "pending", ""⟩], none, 0⟩)) :=
  ⟨(add_first_wins (⟨"T", [], none, 0⟩ : StepTracker) "k" "a" "b").1 (by simp),
   (add_first_wins (⟨"T", [⟨"k", "a", "pending", ""⟩], none, 0⟩ : StepTracker) "k" "a" "b").2
     "c" (by decide)⟩

/-- C7: `normalizeKey` is a total function of its two arguments (it is a
Lean function, hence deterministic and never failing).  Every recognized
descriptor name maps to its normalized name — `up`, `down`, `left`,
`right`, `return` to `enter`, `escape`, `space`, `tab`, `backspace` — and
every unrecognized input falls back to the literal character when truthy,
else the descriptor name when truthy, else the literal `"unknown"`. -/
theorem normalizeKey_spec (str : Option String) (key : Option KeyDesc) :
    (∀ k, key = some k →
        (k.name = some "up" → KeyboardHandler.normalizeKey str key = "up")
      ∧ (k.name = some "down" → KeyboardHandler.normalizeKey str key = "down")
      ∧ (k.name = some "left" → KeyboardHandler.normalizeKey str key = "left")
      ∧ (k.name = some "right" → KeyboardHandler.normalizeKey str key = "right")
      ∧ (k.name = some "return" → KeyboardHandler.normalizeKey str key = "enter")
      ∧ (k.name = some "escape" → KeyboardHandler.normalizeKey str key = "escape")
      ∧ (k.name = some "space" → KeyboardHandler.normalizeKey str key = "space")
      ∧ (k.name = some "tab" → KeyboardHandler.normalizeKey str key = "tab")
      ∧ (k.name = some "backspace" → KeyboardHandler.normalizeKey str key = "backspace"))
    ∧ (key = none →
        (∀ c, str = some c → c ≠ "" → KeyboardHandler.normalizeKey str key = c)
      ∧ ((str = none ∨ str = some "") → KeyboardHandler.normalizeKey str key = "unknown"))
    ∧ (∀ k, key = some k →
        k.name ∉ [some "up", some "down", some "left", some "right", some "return",
          some "escape", some "space", some "tab", some "backspace"] →
        (∀ c, str = some c → c ≠ "" → KeyboardHandler.normalizeKey str key = c)
      ∧ ((str = none ∨ str = some "") →
          ∀ n, k.name = some n → n ≠ "" → KeyboardHandler.normalizeKey str key = n)
      ∧ ((str = none ∨ str = some "") → (k.name = none ∨ k.name = some "") →
          KeyboardHandler.normalizeKey str key = "unknown")) := by
  refine ⟨?_, ?_, ?_⟩
  · intro k hk
    subst hk
    refine ⟨?_, ?_, ?_, ?_, ?_, ?_, ?_, ?_, ?_⟩ <;>
      intro hn <;> simp [KeyboardHandler.normalizeKey, hn]
  · intro hk
    subst hk
    constructor
    · intro c hc hne
      subst hc
      simp [KeyboardHandler.normalizeKey, jsOr, hne]
    · rintro (hc | hc) <;> subst hc <;> simp [KeyboardHandler.normalizeKey, jsOr]
  · intro k hk hmem
    subst hk
    simp only [List.mem_cons, List.mem_singleton, not_or] at hmem
    obtain ⟨n1, n2, n3, n4, n5, n6, n7, n8, n9, -⟩ := hmem
    have hfall : ∀ s, KeyboardHandler.normalizeKey s (some k) = jsOr s (jsOr k.name "unknown") := by
      intro s
      simp only [KeyboardHandler.normalizeKey, if_neg n1, if_neg n2, if_neg n3, if_neg n4,
        if_neg n5, if_neg n6, if_neg n7, if_neg n8, if_neg n9]
    refine ⟨?_, ?_, ?_⟩
    · intro c hc hne
      subst hc
      rw [hfall]
      simp [jsOr, hne]
    · rintro (hc | hc) n nm hne <;> subst hc <;> rw [hfall] <;> simp [jsOr, nm, hne]
    · rintro (hc | hc) (hn | hn) <;> subst hc <;> rw [hfall] <;> simp [jsOr, hn]

/-- Witness for C7: `return` normalizes to `enter`; an unrecognized
descriptor with a typed character yields that character; and no character
with no descriptor yields `"unknown"`. -/
theorem normalizeKey_spec_witness :
    KeyboardHandler.normalizeKey none (some ⟨some "return", false⟩) = "enter"
    ∧ KeyboardHandler.normalizeKey (some "x") (some ⟨some "f1", false⟩) = "x"
    ∧ KeyboardHandler.normalizeKey none none = "unknown" :=
  ⟨((normalizeKey_spec none (some ⟨some "return", false⟩)).1 ⟨some "return", false⟩ rfl).2.2.2.2.1
      rfl,
   ((normalizeKey_spec (some "x") (some ⟨some "f1", false⟩)).2.2 ⟨some "f1", false⟩ rfl
      (by decide)).1 "x" rfl (by decide),
   ((normalizeKey_spec none none).2.1 rfl).2 (Or.inl rfl)⟩

/-- C5: the raw-mode flag is managed idempotently and without reference
counting.  `enableRawMode` on an already-enabled handler is a no-op with
no stdin effects; `disableRawMode` on an already-disabled handler is a
no-op with no stdin effects; and enabling twice then disabling once
leaves the flag disabled. -/
theorem rawmode_idempotent (h : KeyboardHandler) (tty : Bool) :
    (KeyboardHandler.enableRawMode { h with isRawMode := true } tty
        = ({ h with isRawMode := true }, []))
    ∧ (KeyboardHandler.disableRawMode { h with isRawMode := false } tty
        = ({ h with isRawMode := false }, []))
    ∧ ((((h.enableRawMode tty).1.enableRawMode tty).1.disableRawMode tty).1.isRawMode
        = false) := by
  refine ⟨?_, ?_, ?_⟩
  · simp [KeyboardHandler.enableRawMode]
  · simp [KeyboardHandler.disableRawMode]
  · by_cases hr : h.isRawMode <;>
      simp [KeyboardHandler.enableRawMode, KeyboardHandler.disableRawMode, hr]

/-- C3: three raw events delivered inside one debounce window, none of
them Ctrl+C, are all buffered without any emission; when the timer then
fires, the buffer is emptied and exactly one normalized event is emitted,
derived from the last event `e3`. -/
theorem debounce_coalesce (h : KeyboardHandler) (tty : Bool) (e1 e2 e3 : RawEvent)
    (hbuf : h.keyBuffer = [])
    (hc1 : isCtrlC e1 = false) (hc2 : isCtrlC e2 = false) (hc3 : isCtrlC e3 = false) :
    ∃ g1 g2 g3 : KeyboardHandler,
      h.handleKeypress tty e1 = KeypressResult.continued g1
      ∧ g1.handleKeypress tty e2 = KeypressResult.continued g2
      ∧ g2.handleKeypress tty e3 = KeypressResult.continued g3
      ∧ g3.keyBuffer = [e1, e2, e3]
      ∧ g3.processKeyBuffer
          = ({ g3 with keyBuffer := [] },
             [(KeyboardHandler.normalizeKey e3.str e3.key, e3)]) := by
  refine ⟨{ h with keyBuffer := h.keyBuffer ++ [e1], debounceTimerSet := true },
    { h with keyBuffer := h.keyBuffer ++ [e1] ++ [e2], debounceTimerSet := true },
    { h with keyBuffer := h.keyBuffer ++ [e1] ++ [e2] ++ [e3], debounceTimerSet := true },
    by simp [KeyboardHandler.handleKeypress, hc1], by simp [KeyboardHandler.handleKeypress, hc2],
    by simp [KeyboardHandler.handleKeypress, hc3], by simp [hbuf], ?_⟩
  have hlast : (h.keyBuffer ++ [e1] ++ [e2] ++ [e3]).getLast? = some e3 :=
    List.getLast?_concat _
  simp [KeyboardHandler.processKeyBuffer, hlast]

/-- Witness for C3: a concrete burst of a character key and two arrow
keys on a fresh handler coalesces to a single `up` emission. -/
theorem debounce_coalesce_witness :
    ∃ g1 g2 g3 : KeyboardHandler,
      (⟨false, [], [], false⟩ : KeyboardHandler).handleKeypress false ⟨some "j", none⟩
          = KeypressResult.continued g1
      ∧ g1.handleKeypress false ⟨none, some ⟨some "down", false⟩⟩ = KeypressResult.continued g2
      ∧ g2.handleKeypress false ⟨none, some ⟨some "up", false⟩⟩ = KeypressResult.continued g3
      ∧ g3.keyBuffer
          = [⟨some "j", none⟩, ⟨none, some ⟨some "down", false⟩⟩, ⟨none, some ⟨some "up", false⟩⟩]
      ∧ g3.processKeyBuffer
          = ({ g3 with keyBuffer := [] },
             [(KeyboardHandler.normalizeKey none (some ⟨some "up", false⟩),
               ⟨none, some ⟨some "up", false⟩⟩)]) :=
  debounce_coalesce ⟨false, [], [], false⟩ false ⟨some "j", none⟩
    ⟨none, some ⟨some "down", false⟩⟩ ⟨none, some ⟨some "up", false⟩⟩
    rfl (by decide) (by decide) (by decide)

/-- C2 counterexample: `emit` with a throwing subscriber registered before
another subscriber lets the exception propagate (second component
`false`) and does not invoke the remaining subscriber — refuting, at this
concrete input, that the dispatch swallows the exception and still
invokes the rest. -/
theorem emit_swallow_counterexample :
    KeyboardHandler.emit [("enter", [⟨0, true⟩, ⟨1, false⟩])] "enter" = ([0], false)
    ∧ ¬ ((KeyboardHandler.emit [("enter", [⟨0, true⟩, ⟨1, false⟩])] "enter").2 = true
        ∧ 1 ∈ (KeyboardHandler.emit [("enter", [⟨0, true⟩, ⟨1, false⟩])] "enter").1) := by
  decide

/-- C2 (amended): the tracker's `maybeRefresh` catches and swallows an
exception from the refresh callback, so it never raises; but the
keyboard's `emit` has no try/catch — a throwing subscriber ends the
callback run with the exception propagating, the callbacks registered
after it are not invoked, and when the name-specific run raises, the
`"any"` subscribers are skipped entirely. -/
theorem dispatch_exception_policy (t : StepTracker) (pre : List Callback) (c : Callback)
    (post : List Callback) (ls : List (String × List Callback)) (name : String)
    (cbs : List Callback) :
    ((StepTracker.maybeRefresh t).2 = false)
    ∧ (c.throws = true → (∀ d ∈ pre, d.throws = false) →
        runCallbacks (pre ++ c :: post) = (pre.map (fun d => d.cbId) ++ [c.cbId], false))
    ∧ (lookupListeners ls name = some cbs → (runCallbacks cbs).2 = false →
        KeyboardHandler.emit ls name = ((runCallbacks cbs).1, false)) := by
  refine ⟨?_, ?_, ?_⟩
  · unfold StepTracker.maybeRefresh
    cases t.refreshCallback with
    | none => rfl
    | some cb => cases hi : invokeCallback cb <;> simp [hi]
  · intro hc hpre
    induction pre with
    | nil => simp [runCallbacks, hc]
    | cons d rest ih =>
      have hd : d.throws = false := hpre d (List.mem_cons_self d rest)
      have ih2 := ih (fun x hx => hpre x (List.mem_cons_of_mem d hx))
      simp [runCallbacks, hd, ih2]
  · intro hl hfail
    unfold KeyboardHandler.emit
    rw [hl]
    simp [hfail]

/-- Witness for C2 (amended): a tracker whose refresh callback throws
still refreshes without raising; a concrete throwing subscriber stops the
callback run; and `emit` propagates that failure without reaching the
`"any"` list. -/
theorem dispatch_exception_policy_witness :
    ((StepTracker.maybeRefresh ⟨"T", [], some ⟨7, true⟩, 0⟩).2 = false)
    ∧ runCallbacks ([⟨0, false⟩] ++ ⟨1, true⟩ :: [⟨2, false⟩]) = ([0, 1], false)
    ∧ KeyboardHandler.emit [("x", [⟨1, true⟩]), ("any", [⟨2, false⟩])] "x"
        = ((runCallbacks [⟨1, true⟩]).1, false) :=
  ⟨(dispatch_exception_policy ⟨"T", [], some ⟨7, true⟩, 0⟩ [] ⟨0, true⟩ [] [] "x" []).1,
   by
    have h := (dispatch_exception_policy ⟨"T", [], none, 0⟩ [⟨0, false⟩] ⟨1, true⟩ [⟨2, false⟩]
      [] "x" []).2.1 rfl (by decide)
    rw [h]
    decide,
   (dispatch_exception_policy ⟨"T", [], none, 0⟩ [] ⟨0, true⟩ []
      [("x", [⟨1, true⟩]), ("any", [⟨2, false⟩])] "x" [⟨1, true⟩]).2.2 (by decide) (by decide)⟩

/-- C9: a flush (`processQueue`) on a non-empty queue renders exactly the
most recently queued render function, discards the earlier ones, empties
the queue and tracks the new line count; a flush on an empty queue writes
nothing and changes nothing. -/
theorem processQueue_latest (u : LiveUpdater) :
    (u.updateQueue = [] → u.processQueue = (u, []))
    ∧ (∀ earlier content, u.updateQueue = earlier ++ [content] →
        u.processQueue
          = ({ u with updateQueue := [], currentLines := lineCount content },
             LiveUpdater.clearLinesOps u.currentLines ++ [WriteOp.write content])) := by
  constructor
  · intro hq
    unfold LiveUpdater.processQueue
    rw [hq]
    rfl
  · intro earlier content hq
    unfold LiveUpdater.processQueue
    rw [hq, List.getLast?_concat]

/-- Witness for C9: with two queued renders, the flush writes only the
later one and empties the queue; the empty-queue flush is the identity
with no writes. -/
theorem processQueue_latest_witness :
    ((⟨true, ["a", "b"], 2, true⟩ : LiveUpdater).processQueue
        = (⟨true, [], lineCount "b", true⟩,
           LiveUpdater.clearLinesOps 2 ++ [WriteOp.write "b"]))
    ∧ ((⟨true, [], 2, true⟩ : LiveUpdater).processQueue = (⟨true, [], 2, true⟩, [])) :=
  ⟨(processQueue_latest ⟨true, ["a", "b"], 2, true⟩).2 ["a"] "b" rfl,
   (processQueue_latest ⟨true, [], 2, true⟩).1 rfl⟩

/-- C10: `update` on an absent key auto-creates the step with its label
equal to the key itself, carrying the given status and detail. -/
theorem update_autocreate_label (t : StepTracker) (key status detail : String)
    (habs : ∀ s ∈ t.steps, s.key ≠ key) :
    ∃ s : Step, (t.update key status detail).steps = t.steps ++ [s]
      ∧ s.key = key ∧ s.label = key ∧ s.status = status ∧ s.detail = detail := by
  refine ⟨⟨key, key, status, detail⟩, ?_, rfl, rfl, rfl, rfl⟩
  exact update_absent t key status detail habs

/-- Witness for C10: `update("newkey","running","")` on a fresh tracker
creates a step labelled `"newkey"` with status `running`. -/
lemma handleKey_items (s : Selector) (k : String) :
    (Selector.handleKey s k).1.items = s.items := by
  unfold Selector.handleKey Selector.render
  split_ifs <;> rfl

lemma handleKey_up_idx (s : Selector) :
    (Selector.handleKey s "up").1.selectedIndex
      = (s.selectedIndex - 1 + (s.items.length : Int)) % (s.items.length : Int) := by
  simp [Selector.handleKey, Selector.render]

lemma handleKey_down_idx (s : Selector) :
    (Selector.handleKey s "down").1.selectedIndex
      = (s.selectedIndex + 1) % (s.items.length : Int) := by
  simp [Selector.handleKey, Selector.render]

lemma emod_add_sub_emod (a b c n : Int) : (a % n + b - c) % n = (a + b - c) % n := by
  rw [show a % n + b - c = a % n + (b - c) from by ring, Int.emod_add_emod,
    show a + (b - c) = a + b - c from by ring]

lemma emod_shift (i d u n : Int) : (i - 1 + n + d - u) % n = (i + d - (u + 1)) % n := by
  rw [show i - 1 + n + d - u = (i + d - (u + 1)) + n * 1 from by ring,
    Int.add_mul_emod_self_left]

/-- C1: over any sequence of `up`/`down` keys handled by
`Selector.handleKey`, the selected index of a selector with `N ≥ 1` items
and an in-range starting index `i` ends at `(i + downs − ups) mod N`. -/
theorem selector_wraparound (ks : List String) : ∀ s : Selector,
    1 ≤ s.items.length → 0 ≤ s.selectedIndex → s.selectedIndex < (s.items.length : Int) →
    (∀ k ∈ ks, k = "up" ∨ k = "down") →
    (s.applyKeys ks).selectedIndex
      = (s.selectedIndex + ((ks.countP (fun k => k = "down") : Nat) : Int)
          - ((ks.countP (fun k => k = "up") : Nat) : Int)) % ((s.items.length : Nat) : Int) := by
  induction ks with
  | nil =>
    intro s h1 h0 hlt _
    simp only [Selector.applyKeys, List.foldl_nil, List.countP_nil, Int.natCast_zero,
      add_zero, sub_zero]
    exact (Int.emod_eq_of_lt h0 hlt).symm
  | cons k ks ih =>
    intro s h1 h0 hlt hks
    have hN0 : (0 : Int) < (s.items.length : Int) := by exact_mod_cast h1
    have hstep : Selector.applyKeys s (k :: ks) = Selector.applyKeys (Selector.handleKey s k).1 ks := rfl
    have hkk := hks k (List.mem_cons_self k ks)
    have hks2 : ∀ x ∈ ks, x = "up" ∨ x = "down" := fun x hx => hks x (List.mem_cons_of_mem k hx)
    obtain hk | hk := hkk <;> subst hk
    · have hit := handleKey_items s "up"
      have hix := handleKey_up_idx s
      have h1b : 1 ≤ (Selector.handleKey s "up").1.items.length := by rw [hit]; exact h1
      have h0b : 0 ≤ (Selector.handleKey s "up").1.selectedIndex := by
        rw [hix]; exact Int.emod_nonneg _ (ne_of_gt hN0)
      have hltb : (Selector.handleKey s "up").1.selectedIndex
          < ((Selector.handleKey s "up").1.items.length : Int) := by
        rw [hix, hit]; exact Int.emod_lt_of_pos _ hN0
      have hrec := ih (Selector.handleKey s "up").1 h1b h0b hltb hks2
      have hd : List.countP (fun k => k = "down") ("up" :: ks)
          = List.countP (fun k => k = "down") ks := by simp [List.countP_cons]
      have hu : List.countP (fun k => k = "up") ("up" :: ks)
          = List.countP (fun k => k = "up") ks + 1 := by simp [List.countP_cons]
      rw [hstep, hrec, hit, hix, hd, hu]
      push_cast
      rw [emod_add_sub_emod, emod_shift]
    · have hit := handleKey_items s "down"
      have hix := handleKey_down_idx s
      have h1b : 1 ≤ (Selector.handleKey s "down").1.items.length := by rw [hit]; exact h1
      have h0b : 0 ≤ (Selector.handleKey s "down").1.selectedIndex := by
        rw [hix]; exact Int.emod_nonneg _ (ne_of_gt hN0)
      have hltb : (Selector.handleKey s "down").1.selectedIndex
          < ((Selector.handleKey s "down").1.items.length : Int) := by
        rw [hix, hit]; exact Int.emod_lt_of_pos _ hN0
      have hrec := ih (Selector.handleKey s "down").1 h1b h0b hltb hks2
      have hd : List.countP (fun k => k = "down") ("down" :: ks)
          = List.countP (fun k => k = "down") ks + 1 := by simp [List.countP_cons]
      have hu : List.countP (fun k => k = "up") ("down" :: ks)
          = List.countP (fun k => k = "up") ks := by simp [List.countP_cons]
      rw [hstep, hrec, hit, hix, hd, hu]
      push_cast
      rw [emod_add_sub_emod]
      congr 1
      ring

lemma handleKey_plc (s : Selector) (k : String)
    (hp : s.previousLineCount = 5 + s.items.length) :
    (Selector.handleKey s k).1.previousLineCount = 5 + (Selector.handleKey s k).1.items.length := by
  unfold Selector.handleKey Selector.render Selector.renderLineTotal
  split_ifs <;> simp <;> omega

lemma runLoop_cons_active (s : Selector) (k : String) (ks : List String)
    (ha : s.isActive = true) :
    Selector.runLoop s (k :: ks)
      = ((Selector.runLoop (Selector.handleKey s k).1 ks).1,
         (Selector.handleKey s k).2 ++ (Selector.runLoop (Selector.handleKey s k).1 ks).2) := by
  rcases hh : Selector.handleKey s k with ⟨s1, e1⟩
  rcases hr : Selector.runLoop s1 ks with ⟨s2, e2⟩
  simp [Selector.runLoop, ha, hh, hr]

lemma runLoop_inv (ks : List String) : ∀ s : Selector,
    s.previousLineCount = 5 + s.items.length →
    (Selector.runLoop s ks).1.items = s.items
      ∧ (Selector.runLoop s ks).1.previousLineCount = 5 + s.items.length := by
  induction ks with
  | nil => intro s hp; exact ⟨rfl, hp⟩
  | cons k ks ih =>
    intro s hp
    by_cases ha : s.isActive
    · rw [runLoop_cons_active s k ks ha]
      have hi := handleKey_items s k
      have hpl := handleKey_plc s k hp
      have hrec := ih (Selector.handleKey s k).1 hpl
      refine ⟨?_, ?_⟩
      · simpa [hi] using hrec.1
      · simpa [hi] using hrec.2
    · have ha2 : s.isActive = false := by simpa using ha
      simp [Selector.runLoop, ha2, hp]

lemma run_false_eq (s0 : Selector) (keys : List String) :
    Selector.run s0 keys false
      = (if (Selector.runLoop
            { s0 with isActive := true, previousLineCount := 5 + s0.items.length }
            keys).1.isActive then
          ([SelEffect.enableRaw, SelEffect.render (6 + s0.items.length), SelEffect.subscribeAny]
            ++ (Selector.runLoop
                { s0 with isActive := true, previousLineCount := 5 + s0.items.length }
                keys).2,
           RunOutcome.stillActive)
         else
          ([SelEffect.enableRaw, SelEffect.render (6 + s0.items.length), SelEffect.subscribeAny]
            ++ (Selector.runLoop
                { s0 with isActive := true, previousLineCount := 5 + s0.items.length }
                keys).2
            ++ [SelEffect.unsubscribeAny, SelEffect.disableRaw]
            ++ (if (Selector.runLoop
                  { s0 with isActive := true, previousLineCount := 5 + s0.items.length }
                  keys).1.previousLineCount ≠ 0 then
                [SelEffect.eraseLines (Selector.runLoop
                  { s0 with isActive := true, previousLineCount := 5 + s0.items.length }
                  keys).1.previousLineCount]
               else [])
            ++ (if (Selector.runLoop
                  { s0 with isActive := true, previousLineCount := 5 + s0.items.length }
                  keys).1.result = none then [SelEffect.printCancelled] else []),
           RunOutcome.completed (Selector.runLoop
              { s0 with isActive := true, previousLineCount := 5 + s0.items.length }
              keys).1.result)) := by
  rcases hp : Selector.runLoop
      { s0 with isActive := true, previousLineCount := 5 + s0.items.length } keys
    with ⟨s3, le⟩
  simp [Selector.run, Selector.render, Selector.renderLineTotal, hp]

/-- C4 (amended): `Selector.run` performs its cleanup — unsubscribing the
`'any'` listener, disabling raw mode, and erasing its rendered lines — on
every normal exit path, i.e. whenever the key sequence deactivates the
selector (resolution via `enter` or cancellation via `escape`); but the
cleanup is not guarded by a try/finally, so when an error is thrown
during the run (modelled by the initial render throwing) the call aborts
with none of the cleanup performed. -/
theorem run_cleanup (s0 : Selector) (keys : List String) :
    (∀ effs r, Selector.run s0 keys false = (effs, RunOutcome.completed r) →
        SelEffect.unsubscribeAny ∈ effs ∧ SelEffect.disableRaw ∈ effs
          ∧ SelEffect.eraseLines (5 + s0.items.length) ∈ effs)
    ∧ Selector.run s0 keys true = ([SelEffect.enableRaw], RunOutcome.errored) := by
  constructor
  · intro effs r hrun
    rw [run_false_eq] at hrun
    have hinv := runLoop_inv keys
      { s0 with isActive := true, previousLineCount := 5 + s0.items.length }
      (by simp)
    rcases hp : Selector.runLoop
        { s0 with isActive := true, previousLineCount := 5 + s0.items.length } keys
      with ⟨s3, le⟩
    rw [hp] at hrun hinv
    by_cases hact : s3.isActive
    · simp [hact] at hrun
    · have hact2 : s3.isActive = false := by simpa using hact
      simp only [hact2, Bool.false_eq_true, if_false, Prod.mk.injEq] at hrun
      obtain ⟨heffs, -⟩ := hrun
      subst heffs
      have hplc : s3.previousLineCount = 5 + s0.items.length := by
        have := hinv.2
        simpa using this
      have hne : s3.previousLineCount ≠ 0 := by omega
      refine ⟨?_, ?_, ?_⟩
      · simp
      · simp
      · simp [hne, hplc]
  · rfl

/-- C4 counterexample: with the initial render throwing, `run` aborts
after only enabling raw mode — the whole effect trace is
`[enableRaw]`, so neither the unsubscribe, nor the raw-mode disable, nor
any line erase happens on this exit path, refuting the claim's
"including when an error is thrown" clause. -/
theorem run_cleanup_counterexample :
    Selector.run ⟨[⟨"a", "Option A"⟩], "Select", 0, false, none, 0⟩ ["enter"] true
      = ([SelEffect.enableRaw], RunOutcome.errored)
    ∧ SelEffect.unsubscribeAny ∉ [SelEffect.enableRaw]
    ∧ SelEffect.disableRaw ∉ [SelEffect.enableRaw]
    ∧ SelEffect.eraseLines 6 ∉ [SelEffect.enableRaw] := by
  decide

/-- Witness for C4 (amended): scenario B — `up` then `escape` on a
three-item selector completes with no result, and the trace contains the
unsubscribe, the raw-mode disable and the erase of the rendered block;
the error path aborts with only `enableRaw` performed. -/
theorem run_cleanup_witness :
    (SelEffect.unsubscribeAny ∈ (Selector.run
        ⟨[⟨"a", "Option A"⟩, ⟨"b", "Option B"⟩, ⟨"c", "Option C"⟩], "Select", 0, false, none, 0⟩
        ["up", "escape"] false).1
      ∧ SelEffect.disableRaw ∈ (Selector.run
        ⟨[⟨"a", "Option A"⟩, ⟨"b", "Option B"⟩, ⟨"c", "Option C"⟩], "Select", 0, false, none, 0⟩
        ["up", "escape"] false).1
      ∧ SelEffect.eraseLines 8 ∈ (Selector.run
        ⟨[⟨"a", "Option A"⟩, ⟨"b", "Option B"⟩, ⟨"c", "Option C"⟩], "Select", 0, false, none, 0⟩
        ["up", "escape"] false).1)
    ∧ Selector.run
        ⟨[⟨"a", "Option A"⟩, ⟨"b", "Option B"⟩, ⟨"c", "Option C"⟩], "Select", 0, false, none, 0⟩
        ["up", "escape"] true = ([SelEffect.enableRaw], RunOutcome.errored) :=
  ⟨(run_cleanup
      ⟨[⟨"a", "Option A"⟩, ⟨"b", "Option B"⟩, ⟨"c", "Option C"⟩], "Select", 0, false, none, 0⟩
      ["up", "escape"]).1
      (Selector.run
        ⟨[⟨"a", "Option A"⟩, ⟨"b", "Option B"⟩, ⟨"c", "Option C"⟩], "Select", 0, false, none, 0⟩
        ["up", "escape"] false).1 none (by decide),
   (run_cleanup
      ⟨[⟨"a", "Option A"⟩, ⟨"b", "Option B"⟩, ⟨"c", "Option C"⟩], "Select", 0, false, none, 0⟩
      ["up", "escape"]).2⟩

/-- Witness for C1: a single `up` from index 0 of a three-item selector
lands on index 2 = N − 1. -/
theorem selector_wraparound_witness :
    ((⟨[⟨"a", "Option A"⟩, ⟨"b", "Option B"⟩, ⟨"c", "Option C"⟩], "Select", 0, true, none,
        0⟩ : Selector).applyKeys ["up"]).selectedIndex = 2 := by
  have h := selector_wraparound ["up"]
    ⟨[⟨"a", "Option A"⟩, ⟨"b", "Option B"⟩, ⟨"c", "Option C"⟩], "Select", 0, true, none, 0⟩
    (by decide) (by decide) (by decide) (by decide)
  rw [h]
  decide

theorem update_autocreate_label_witness :
    ∃ s : Step, ((⟨"T", [], none, 0⟩ : StepTracker).update "newkey" "running" "").steps
        = (⟨"T", [], none, 0⟩ : StepTracker).steps ++ [s]
      ∧ s.key = "newkey" ∧ s.label = "newkey" ∧ s.status = "running" ∧ s.detail = "" :=
  update_autocreate_label (⟨"T", [], none, 0⟩ : StepTracker) "newkey" "running" "" (by simp)
